import Mathlib

/-!
Verification of the Program_Manager back-end command.

The repository's only source file, src/src-tauri/src/main.rs, exposes a
single host-callable command:

  fn remove_dir_all(path: String) -> Result<(), String> {
      fs::remove_dir_all(&path).map_err(|e| e.to_string())
  }

The command is a direct pass-through to the operating-system recursive
delete primitive std::fs::remove_dir_all, which is external to the
repository; that primitive is modelled here from the specification's
description of the collaborator contract. The command itself is embedded
from the source: one call to the primitive, with any error converted to
its textual description.
-/

namespace ProgramManager

/-- A path component, as the OS sees it after splitting on separators. -/
abbrev Component := List Char

/-- A resolved path: the list of components from the filesystem root. -/
abbrev OsPath := List Component

/-- Kind of a filesystem entry: a regular file or a directory. -/
inductive EntryKind where
  | file
  | dir
deriving DecidableEq

/-- Modelled from the spec: the operating-system filesystem, the only
collaborator of the command.  `entries` is the set of existing entries
(each with its kind); `writable` tells whether the caller has permission
to delete a given entry. -/
structure FileSystem where
  entries : List (OsPath × EntryKind)
  writable : OsPath → Bool

/-- Split a raw character sequence on the path separator. -/
def splitOnSlash : List Char → List Component
  | [] => [[]]
  | c :: cs =>
    let rest := splitOnSlash cs
    if c = '/' then [] :: rest
    else
      match rest with
      | [] => [[c]]
      | g :: gs => (c :: g) :: gs

/-- Modelled from the spec: OS path resolution.  The empty string names
no entry; any other string resolves to its nonempty components. -/
def parsePath (s : String) : Option OsPath :=
  if s.data = [] then none
  else some ((splitOnSlash s.data).filter (fun c => !(c.isEmpty)))

/-- Does the filesystem contain an entry at path `p`? -/
def FileSystem.existsEntry (fs : FileSystem) (p : OsPath) : Bool :=
  fs.entries.any (fun e => e.1 = p)

/-- The kind of the entry at `p`, when one exists. -/
def FileSystem.kindOf (fs : FileSystem) (p : OsPath) : Option EntryKind :=
  (fs.entries.find? (fun e => e.1 = p)).map (fun e => e.2)

/-- `underPath p q` holds when `q` lies in the subtree rooted at `p`
(`p` itself included): `p` is an initial segment of `q`. -/
def underPath : OsPath → OsPath → Bool
  | [], _ => true
  | _ :: _, [] => false
  | a :: p, b :: q => a = b && underPath p q

/-- Every entry in the subtree rooted at `p` is writable by the caller. -/
def FileSystem.subtreeWritable (fs : FileSystem) (p : OsPath) : Bool :=
  fs.entries.all (fun e => !(underPath p e.1) || fs.writable e.1)

/-- Modelled from the spec: the OS-level causes a delete can fail with. -/
inductive FsError where
  | notFound
  | permissionDenied
  | notADirectory
deriving DecidableEq

/-- Modelled from the spec: the textual description of an OS error, as
`e.to_string()` produces it.  Every description is nonempty. -/
def FsError.toString : FsError → String
  | .notFound => "No such file or directory (os error 2)"
  | .permissionDenied => "Permission denied (os error 13)"
  | .notADirectory => "Not a directory (os error 20)"

/-- Modelled from the spec: the recursive delete primitive
`std::fs::remove_dir_all`, external to the repository.  It resolves the
raw path string, fails if the target is missing, is a regular file, or
is not deletable, and otherwise removes the target and every entry
beneath it.  When a descendant (but not the root) is not writable the
traversal fails after deleting what it could, mirroring the spec's
"a failure partway through may leave partial deletion"; when the OS
denies access at the root, nothing is deleted. -/
def fsRemoveDirAll (fs : FileSystem) (path : String) :
    Except FsError Unit × FileSystem :=
  match parsePath path with
  | none => (Except.error FsError.notFound, fs)
  | some p =>
    if fs.existsEntry p then
      if fs.kindOf p = some EntryKind.file then
        (Except.error FsError.notADirectory, fs)
      else if fs.writable p then
        if fs.subtreeWritable p then
          (Except.ok (),
            { fs with entries := fs.entries.filter (fun e => !(underPath p e.1)) })
        else
          let keep := fun (e : OsPath × EntryKind) =>
            !(underPath p e.1 && !(decide (e.1 = p)) && fs.subtreeWritable e.1)
          (Except.error FsError.permissionDenied,
            { fs with entries := fs.entries.filter keep })
      else
        (Except.error FsError.permissionDenied, fs)
    else
      (Except.error FsError.notFound, fs)

/-- The command of src/src-tauri/src/main.rs:
`fs::remove_dir_all(&path).map_err(|e| e.to_string())`.
One call to the primitive; a success carries no payload, a failure
carries the OS error's textual description. -/
def remove_dir_all (fs : FileSystem) (path : String) :
    Except String Unit × FileSystem :=
  let r := fsRemoveDirAll fs path
  (match r.1 with
   | Except.ok u => Except.ok u
   | Except.error e => Except.error e.toString, r.2)

/-- The primitive instrumented with a trace: it behaves exactly as
`fsRemoveDirAll` and additionally records the raw argument string it
received, appended to the trace of earlier primitive calls. -/
def fsRemoveDirAllTraced (fs : FileSystem) (path : String) (tr : List String) :
    (Except FsError Unit × FileSystem) × List String :=
  (fsRemoveDirAll fs path, tr ++ [path])

/-- The command, compiled against the instrumented primitive.  As in the
source, the command hands its caller's string `path` to the primitive as
is, exactly once, and converts a failure to the error's description. -/
def removeDirAllTraced (fs : FileSystem) (path : String) (tr : List String) :
    Except String Unit × FileSystem × List String :=
  let r := fsRemoveDirAllTraced fs path tr
  (match r.1.1 with
   | Except.ok u => Except.ok u
   | Except.error e => Except.error e.toString, r.1.2, r.2)

/-- Does the raw path string resolve to an existing entry? -/
def pathExists (fs : FileSystem) (path : String) : Bool :=
  match parsePath path with
  | none => false
  | some p => fs.existsEntry p

/-- Run a sequence of invocations of the command, threading the
filesystem through and collecting the results in order. -/
def runCalls (fs : FileSystem) : List String → List (Except String Unit) × FileSystem
  | [] => ([], fs)
  | p :: ps =>
    let r := remove_dir_all fs p
    let rest := runCalls r.2 ps
    (r.1 :: rest.1, rest.2)

/-! ### Basic lemmas about the model -/

/-- A path is an initial segment of itself. -/
theorem underPath_refl (p : OsPath) : underPath p p = true := by
  induction p with
  | nil => rfl
  | cons a p ih => simp [underPath, ih]

/-- If `p` exists and its whole subtree is writable, then `p` itself is
writable. -/
theorem writable_of_subtreeWritable (fs : FileSystem) (p : OsPath)
    (hex : fs.existsEntry p = true) (hw : fs.subtreeWritable p = true) :
    fs.writable p = true := by
  rcases List.any_eq_true.mp hex with ⟨e, he, hep⟩
  have hall := List.all_eq_true.mp hw e he
  have hep' : e.1 = p := of_decide_eq_true hep
  rw [hep', underPath_refl] at hall
  simpa using hall

/-- The first component of the command is the primitive's result with the
error converted to its description. -/
theorem remove_dir_all_fst (fs : FileSystem) (path : String) :
    (remove_dir_all fs path).1 =
      match (fsRemoveDirAll fs path).1 with
      | Except.ok u => Except.ok u
      | Except.error e => Except.error e.toString := rfl

/-- The command leaves the filesystem exactly as the primitive does. -/
theorem remove_dir_all_snd (fs : FileSystem) (path : String) :
    (remove_dir_all fs path).2 = (fsRemoveDirAll fs path).2 := rfl

/-- The command succeeds exactly when the primitive does. -/
theorem remove_dir_all_ok_iff (fs : FileSystem) (path : String) :
    (remove_dir_all fs path).1 = Except.ok () ↔
      (fsRemoveDirAll fs path).1 = Except.ok () := by
  cases hr : (fsRemoveDirAll fs path).1 with
  | ok u => cases u; simp [remove_dir_all_fst, hr]
  | error e => simp [remove_dir_all_fst, hr]

/-- Inversion of a successful primitive call: the path resolved, and the
resulting filesystem is the original minus the subtree at the resolved
path, with everything else (the permission map included) untouched. -/
theorem fsRemoveDirAll_ok_inv (fs : FileSystem) (path : String)
    (h : (fsRemoveDirAll fs path).1 = Except.ok ()) :
    ∃ p, parsePath path = some p ∧
      (fsRemoveDirAll fs path).2 =
        { fs with entries := fs.entries.filter (fun e => !(underPath p e.1)) } := by
  rcases hp : parsePath path with _ | p
  · rw [fsRemoveDirAll, hp] at h
    simp at h
  · refine ⟨p, rfl, ?_⟩
    by_cases h1 : fs.existsEntry p = true
    · by_cases h2 : fs.kindOf p = some EntryKind.file
      · rw [fsRemoveDirAll, hp] at h
        simp [h1, h2] at h
      · by_cases h3 : fs.writable p = true
        · by_cases h4 : fs.subtreeWritable p = true
          · rw [fsRemoveDirAll, hp]
            simp [h1, h2, h3, h4]
          · rw [fsRemoveDirAll, hp] at h
            simp [h1, h2, h3, h4] at h
        · rw [fsRemoveDirAll, hp] at h
          simp [h1, h2, h3] at h
    · rw [fsRemoveDirAll, hp] at h
      simp [h1] at h

/-- After a successful deletion, the resolved root no longer exists. -/
theorem existsEntry_after_ok (fs : FileSystem) (path : String) (p : OsPath)
    (hp : parsePath path = some p)
    (h : (fsRemoveDirAll fs path).1 = Except.ok ()) :
    (fsRemoveDirAll fs path).2.existsEntry p = false := by
  rcases fsRemoveDirAll_ok_inv fs path h with ⟨q, hq, hfs⟩
  rw [hp] at hq
  injection hq with hq
  subst hq
  rw [hfs]
  cases hA : FileSystem.existsEntry
      { fs with entries := fs.entries.filter (fun e => !(underPath p e.1)) } p with
  | false => rfl
  | true =>
    rcases List.any_eq_true.mp hA with ⟨e, he, hep⟩
    have hep' : e.1 = p := of_decide_eq_true hep
    have hkeep := (List.mem_filter.mp he).2
    rw [hep', underPath_refl] at hkeep
    simp at hkeep

/-! ### Concrete filesystems used to instantiate the theorems -/

/-- The resolved path of the string "tmp". -/
def wTmp : OsPath := ["tmp".data]

/-- The resolved path of the string "tmp/a". -/
def wTmpA : OsPath := ["tmp".data, "a".data]

/-- A filesystem with a directory `tmp` holding one file `tmp/a`, all
writable, plus an unrelated file `other`. -/
def fsDemo : FileSystem :=
  ⟨[(wTmp, EntryKind.dir), (wTmpA, EntryKind.file), (["other".data], EntryKind.file)],
    fun _ => true⟩

/-- A filesystem with a directory `tmp` the caller may not delete. -/
def fsDenied : FileSystem := ⟨[(wTmp, EntryKind.dir)], fun _ => false⟩

/-- A filesystem with no entries at all. -/
def fsBare : FileSystem := ⟨[], fun _ => true⟩

/-! ### The claims -/

/-- C2: for every path that does not resolve to an existing entry, the
command returns a failure result whose message string is nonempty; being
a total function of its inputs, the call cannot raise an unrecoverable
fault. -/
theorem remove_dir_all_missing_path_fails_nonempty (fs : FileSystem) (path : String)
    (h : pathExists fs path = false) :
    (remove_dir_all fs path).1 = Except.error (FsError.toString FsError.notFound) ∧
      FsError.toString FsError.notFound ≠ "" := by
  refine ⟨?_, by decide⟩
  rcases hp : parsePath path with _ | p
  · rw [remove_dir_all_fst, fsRemoveDirAll, hp]
  · rw [pathExists, hp] at h
    simp only [] at h
    rw [remove_dir_all_fst, fsRemoveDirAll, hp]
    simp [h]

/-- Closed instance of C2 at a concrete missing path. -/
theorem remove_dir_all_missing_path_fails_nonempty_witness :
    (remove_dir_all fsBare "gone").1 = Except.error (FsError.toString FsError.notFound) ∧
      FsError.toString FsError.notFound ≠ "" :=
  remove_dir_all_missing_path_fails_nonempty fsBare "gone" (by decide)

/-- C3: the command exposes a single string-carrying error channel.  Every
primitive failure, whatever its OS-level cause, surfaces as a failure of
the command whose text is that error's description; conversely every
failure of the command arises this way, so no structured distinction
between error kinds reaches the caller. -/
theorem remove_dir_all_single_string_error_channel (fs : FileSystem) (path : String) :
    (∀ e : FsError, (fsRemoveDirAll fs path).1 = Except.error e →
        (remove_dir_all fs path).1 = Except.error (FsError.toString e)) ∧
      ∀ s : String, (remove_dir_all fs path).1 = Except.error s →
        ∃ e : FsError, (fsRemoveDirAll fs path).1 = Except.error e ∧
          s = FsError.toString e := by
  constructor
  · intro e he
    rw [remove_dir_all_fst, he]
  · intro s hs
    cases hr : (fsRemoveDirAll fs path).1 with
    | ok u =>
      rw [remove_dir_all_fst, hr] at hs
      cases hs
    | error e =>
      rw [remove_dir_all_fst, hr] at hs
      injection hs with hs
      exact ⟨e, rfl, hs.symm⟩

/-- Closed instance of C3 at a concrete failing call. -/
theorem remove_dir_all_single_string_error_channel_witness :
    (remove_dir_all fsBare "gone").1 =
      Except.error (FsError.toString FsError.notFound) :=
  (remove_dir_all_single_string_error_channel fsBare "gone").1 FsError.notFound rfl

/-- C4: when the entry at the resolved root exists but the OS denies the
caller permission to delete it, the command returns a failure result and
the filesystem is completely unchanged. -/
theorem remove_dir_all_root_permission_denied_unchanged (fs : FileSystem)
    (path : String) (p : OsPath)
    (hp : parsePath path = some p)
    (hex : fs.existsEntry p = true)
    (hw : fs.writable p = false) :
    (∃ s, (remove_dir_all fs path).1 = Except.error s) ∧
      (remove_dir_all fs path).2 = fs := by
  by_cases h2 : fs.kindOf p = some EntryKind.file
  · constructor
    · refine ⟨FsError.toString FsError.notADirectory, ?_⟩
      rw [remove_dir_all_fst, fsRemoveDirAll, hp]
      simp [hex, h2]
    · rw [remove_dir_all_snd, fsRemoveDirAll, hp]
      simp [hex, h2]
  · constructor
    · refine ⟨FsError.toString FsError.permissionDenied, ?_⟩
      rw [remove_dir_all_fst, fsRemoveDirAll, hp]
      simp [hex, h2, hw]
    · rw [remove_dir_all_snd, fsRemoveDirAll, hp]
      simp [hex, h2, hw]

/-- Closed instance of C4 at a concrete denied root. -/
theorem remove_dir_all_root_permission_denied_unchanged_witness :
    (∃ s, (remove_dir_all fsDenied "tmp").1 = Except.error s) ∧
      (remove_dir_all fsDenied "tmp").2 = fsDenied :=
  remove_dir_all_root_permission_denied_unchanged fsDenied "tmp" wTmp
    (by decide) (by decide) rfl

/-- C8: invoking the command with the empty string returns a failure
result with a nonempty message and deletes nothing: the filesystem, the
current working directory included, is returned untouched. -/
theorem remove_dir_all_empty_path_fails_no_deletion (fs : FileSystem) :
    (∃ s, (remove_dir_all fs "").1 = Except.error s ∧ s ≠ "") ∧
      (remove_dir_all fs "").2 = fs := by
  have hp : parsePath "" = none := rfl
  refine ⟨⟨FsError.toString FsError.notFound, ?_, by decide⟩, ?_⟩
  · rw [remove_dir_all_fst, fsRemoveDirAll, hp]
  · rw [remove_dir_all_snd, fsRemoveDirAll, hp]

/-- The traced command returns exactly what the untraced command does. -/
theorem removeDirAllTraced_fst (fs : FileSystem) (path : String) (tr : List String) :
    (removeDirAllTraced fs path tr).1 = (remove_dir_all fs path).1 := rfl

/-- C1: for every path resolving to an existing directory whose whole
subtree the caller may delete, the command succeeds and afterwards the
root and every entry beneath it no longer exist: the existence check on
the root fails and no remaining entry lies in the removed subtree. -/
theorem remove_dir_all_deletes_existing_writable_dir (fs : FileSystem)
    (path : String) (p : OsPath)
    (hp : parsePath path = some p)
    (hex : fs.existsEntry p = true)
    (hdir : fs.kindOf p = some EntryKind.dir)
    (hw : fs.subtreeWritable p = true) :
    (remove_dir_all fs path).1 = Except.ok () ∧
      (remove_dir_all fs path).2.existsEntry p = false ∧
      ∀ q ∈ (remove_dir_all fs path).2.entries, underPath p q.1 = false := by
  have hwr : fs.writable p = true := writable_of_subtreeWritable fs p hex hw
  have h2 : ¬ fs.kindOf p = some EntryKind.file := by
    rw [hdir]
    simp
  have hok : (fsRemoveDirAll fs path).1 = Except.ok () := by
    rw [fsRemoveDirAll, hp]
    simp [hex, h2, hwr, hw]
  refine ⟨(remove_dir_all_ok_iff fs path).mpr hok, ?_, ?_⟩
  · rw [remove_dir_all_snd]
    exact existsEntry_after_ok fs path p hp hok
  · intro q hq
    rw [remove_dir_all_snd] at hq
    rcases fsRemoveDirAll_ok_inv fs path hok with ⟨p', hp', hfs⟩
    rw [hp] at hp'
    injection hp' with hpe
    subst hpe
    rw [hfs] at hq
    have hkeep := (List.mem_filter.mp hq).2
    simpa using hkeep

/-- Closed instance of C1 at a concrete writable directory. -/
theorem remove_dir_all_deletes_existing_writable_dir_witness :
    (remove_dir_all fsDemo "tmp").1 = Except.ok () ∧
      (remove_dir_all fsDemo "tmp").2.existsEntry wTmp = false ∧
      ∀ q ∈ (remove_dir_all fsDemo "tmp").2.entries, underPath wTmp q.1 = false :=
  remove_dir_all_deletes_existing_writable_dir fsDemo "tmp" wTmp
    (by decide) (by decide) (by decide) (by decide)

/-- C5: if a first invocation on a path succeeds, a second sequential
invocation on the same path fails with the "does not exist" error, and
deletes nothing further: the filesystem after the second call is the one
the first call left. -/
theorem remove_dir_all_second_call_not_found (fs : FileSystem) (path : String)
    (h : (remove_dir_all fs path).1 = Except.ok ()) :
    (remove_dir_all (remove_dir_all fs path).2 path).1 =
        Except.error (FsError.toString FsError.notFound) ∧
      (remove_dir_all (remove_dir_all fs path).2 path).2 =
        (remove_dir_all fs path).2 := by
  have hok := (remove_dir_all_ok_iff fs path).mp h
  rcases fsRemoveDirAll_ok_inv fs path hok with ⟨p, hp, hfs⟩
  have hex1 : (remove_dir_all fs path).2.existsEntry p = false := by
    rw [remove_dir_all_snd]
    exact existsEntry_after_ok fs path p hp hok
  constructor
  · rw [remove_dir_all_fst, fsRemoveDirAll, hp]
    simp [hex1]
  · rw [remove_dir_all_snd, fsRemoveDirAll, hp]
    simp [hex1]

/-- Closed instance of C5 at a concrete directory deleted twice. -/
theorem remove_dir_all_second_call_not_found_witness :
    (remove_dir_all (remove_dir_all fsDemo "tmp").2 "tmp").1 =
        Except.error (FsError.toString FsError.notFound) ∧
      (remove_dir_all (remove_dir_all fsDemo "tmp").2 "tmp").2 =
        (remove_dir_all fsDemo "tmp").2 :=
  remove_dir_all_second_call_not_found fsDemo "tmp" rfl

/-- C6: the command retains no state between invocations.  In any
sequence of calls, the outcome and the filesystem produced by the last
call are a function of the filesystem state reached before it and of the
path alone, independent of the calls that came earlier. -/
theorem remove_dir_all_stateless_across_calls (fs : FileSystem)
    (hist : List String) (p : String) :
    runCalls fs (hist ++ [p]) =
      ((runCalls fs hist).1 ++ [(remove_dir_all (runCalls fs hist).2 p).1],
        (remove_dir_all (runCalls fs hist).2 p).2) := by
  induction hist generalizing fs with
  | nil => simp [runCalls]
  | cons q hist ih => simp [runCalls, ih]

/-- C7: the string handed to the underlying delete primitive is exactly
the caller's string, unmodified — no validation, normalization,
canonicalization, or rejection happens before use — and instrumentation
changes nothing about the result. -/
theorem remove_dir_all_passes_path_unchanged (fs : FileSystem) (path : String)
    (tr : List String) :
    (removeDirAllTraced fs path tr).2.2 = tr ++ [path] ∧
      (removeDirAllTraced fs path tr).1 = (remove_dir_all fs path).1 ∧
      (removeDirAllTraced fs path tr).2.1 = (remove_dir_all fs path).2 :=
  ⟨rfl, rfl, rfl⟩

/-- C9: every invocation hands the primitive its argument exactly once —
the trace of primitive calls is the one-element list holding the path —
and the command always returns, with either a success or an error value. -/
theorem remove_dir_all_exactly_one_attempt_total (fs : FileSystem) (path : String) :
    (removeDirAllTraced fs path []).2.2 = [path] ∧
      ((removeDirAllTraced fs path []).1 = Except.ok () ∨
        ∃ s, (removeDirAllTraced fs path []).1 = Except.error s) := by
  refine ⟨rfl, ?_⟩
  rw [removeDirAllTraced_fst]
  cases hr : (fsRemoveDirAll fs path).1 with
  | ok u =>
    cases u
    left
    rw [remove_dir_all_fst, hr]
  | error e =>
    right
    refine ⟨FsError.toString e, ?_⟩
    rw [remove_dir_all_fst, hr]

/-- C10: frame property — when the command succeeds, its only effect is
the removal of the subtree at the resolved path: the permission map is
untouched, no entry is created, and every entry outside the subtree
survives. -/
theorem remove_dir_all_frame_property (fs : FileSystem) (path : String) (p : OsPath)
    (hp : parsePath path = some p)
    (h : (remove_dir_all fs path).1 = Except.ok ()) :
    (remove_dir_all fs path).2.writable = fs.writable ∧
      (∀ q ∈ (remove_dir_all fs path).2.entries, q ∈ fs.entries) ∧
      ∀ q ∈ fs.entries, underPath p q.1 = false →
        q ∈ (remove_dir_all fs path).2.entries := by
  have hok := (remove_dir_all_ok_iff fs path).mp h
  rcases fsRemoveDirAll_ok_inv fs path hok with ⟨p', hp', hfs⟩
  rw [hp] at hp'
  injection hp' with hpe
  subst hpe
  rw [remove_dir_all_snd, hfs]
  refine ⟨rfl, ?_, ?_⟩
  · intro q hq
    exact (List.mem_filter.mp hq).1
  · intro q hq hout
    exact List.mem_filter.mpr ⟨hq, by simp [hout]⟩

/-- Closed instance of C10 at a concrete successful deletion. -/
theorem remove_dir_all_frame_property_witness :
    (remove_dir_all fsDemo "tmp").2.writable = fsDemo.writable ∧
      (∀ q ∈ (remove_dir_all fsDemo "tmp").2.entries, q ∈ fsDemo.entries) ∧
      ∀ q ∈ fsDemo.entries, underPath wTmp q.1 = false →
        q ∈ (remove_dir_all fsDemo "tmp").2.entries :=
  remove_dir_all_frame_property fsDemo "tmp" wTmp (by decide) rfl

end ProgramManager
